import Mathlib

/-!
Shallow embedding of the repository `StephAO/oai_agents`:
`oai_agents/agents/base_agent.py` (agent/trainer checkpoint store) and
`scripts/run_overcooked_game.py` (session driver, trajectory log, parsing).
Pure data and control flow are translated into executable Lean definitions;
the external collaborators (the overcooked environment, torch policies,
pygame rendering) are abstracted as function parameters or scripted traces.
-/

namespace OaiAgents

/-- A Python value as it appears in joint-action cells and the legal-action
table `Action.ALL_ACTIONS`: integers, strings, lists and tuples. -/
inductive PyVal where
  | int : Int → PyVal
  | str : String → PyVal
  | list : List PyVal → PyVal
  | tup : List PyVal → PyVal
deriving Repr

mutual

/-- Structural equality of `PyVal`s (Python `==` on these shapes; note Python
treats a list and a tuple of the same elements as unequal, as here). -/
def PyVal.beq : PyVal → PyVal → Bool
  | .int a, .int b => a == b
  | .str a, .str b => a == b
  | .list a, .list b => PyVal.beqList a b
  | .tup a, .tup b => PyVal.beqList a b
  | _, _ => false

def PyVal.beqList : List PyVal → List PyVal → Bool
  | [], [] => true
  | x :: xs, y :: ys => PyVal.beq x y && PyVal.beqList xs ys
  | _, _ => false

end

/-- Python `x in xs` for `PyVal`s. -/
def pyMem (x : PyVal) (xs : List PyVal) : Bool :=
  xs.any (fun y => PyVal.beq x y)

/-- The table `Action.ALL_ACTIONS` of the overcooked_ai collaborator: the four
directions, stay, and the string alias `"interact"`. -/
def ALL_ACTIONS : List PyVal :=
  [ PyVal.tup [PyVal.int 0, PyVal.int (-1)],
    PyVal.tup [PyVal.int 0, PyVal.int 1],
    PyVal.tup [PyVal.int 1, PyVal.int 0],
    PyVal.tup [PyVal.int (-1), PyVal.int 0],
    PyVal.tup [PyVal.int 0, PyVal.int 0],
    PyVal.str "interact" ]

/-- The table `Action.INDEX_TO_ACTION`: the fixed index-to-action table (indices into
`ALL_ACTIONS`). -/
def INDEX_TO_ACTION (i : Fin 6) : PyVal :=
  ALL_ACTIONS.get ⟨i.1, i.isLt⟩

/-- A serialized parameter state (`state_dict`): named weights. -/
abbrev StateDict := List (String × Int)

/-- The experiment arguments (`argparse.Namespace`): the fields the embedded
code reads, plus one opaque field standing for the rest of the namespace. -/
structure Args where
  device : String
  layout_name : String
  encoding_fn : String
  exp_rest : String
deriving Repr, DecidableEq

/-- Modelled from the spec: `get_args_to_save` (in `oai_agents/common/arguments.py`,
not under src/) snapshots the runtime configuration in effect at save time. -/
def get_args_to_save (a : Args) : Args := a

/-- Modelled from the spec: `set_args_from_load` (in `oai_agents/common/arguments.py`,
not under src/) merges the persisted configuration with the runtime arguments —
runtime-supplied values win for the allow-listed fields (target device, layout
override), persisted values win otherwise. -/
def set_args_from_load (saved runtime : Args) : Args :=
  { device := runtime.device, layout_name := runtime.layout_name,
    encoding_fn := saved.encoding_fn, exp_rest := saved.exp_rest }

/-- The class `OAIAgent` (base_agent.py): name, args, a nullable player index, and the
serialized weights of its (opaque) policy.  The constructor sets
`p_idx = None`. -/
structure OAIAgent where
  name : String
  args : Args
  p_idx : Option Nat
  state_dict : StateDict
deriving Repr, DecidableEq

/-- The checkpoint record written by `OAIAgent.save`:
`{'agent_type': type(self), 'state_dict': ..., 'const_params': {'name', 'args'},
'args': get_args_to_save(self.args)}`. -/
structure Checkpoint where
  agent_type : String
  state_dict : StateDict
  const_name : String
  const_args : Args
  args : Args
deriving Repr, DecidableEq

/-- Embeds `OAIAgent.save` (base_agent.py lines 69-76). -/
def OAIAgent.save (a : OAIAgent) : Checkpoint :=
  { agent_type := "OAIAgent", state_dict := a.state_dict,
    const_name := a.name, const_args := a.args,
    args := get_args_to_save a.args }

/-- Embeds `OAIAgent.load` (base_agent.py lines 78-95): merge persisted args with
runtime args, rebuild the object from its constructor parameters (the
constructor leaves `p_idx = None`), then restore the weights. -/
def OAIAgent.load (ck : Checkpoint) (args : Args) : OAIAgent :=
  let merged := set_args_from_load ck.args args
  { name := ck.const_name, args := merged, p_idx := none,
    state_dict := ck.state_dict }

/-- Embeds `OAIAgent.predict`: abstract in the source (the concrete policy is the
delegate built from the loaded weights), so it is embedded as an arbitrary
pure function `policyEval` of the weights and the call's inputs.  It returns
an action index and, for recurrent variants, a new hidden state. -/
def OAIAgent.predict {Obs HState : Type}
    (policyEval : StateDict → Obs → Option HState → Option Bool → Bool → Fin 6 × Option HState)
    (a : OAIAgent) (obs : Obs) (state : Option HState) (episode_start : Option Bool)
    (deterministic : Bool) : Fin 6 × Option HState :=
  policyEval a.state_dict obs state episode_start deterministic

/-- Embeds `OAIAgent.set_idx` (base_agent.py lines 50-51). -/
def OAIAgent.set_idx (a : OAIAgent) (p_idx : Nat) : OAIAgent :=
  { a with p_idx := some p_idx }

/-- Embeds `OAIAgent.action` (base_agent.py lines 53-58): raise if `p_idx` was never
bound, otherwise encode the raw state for the bound seat, predict
deterministically, and translate the index through `INDEX_TO_ACTION`. -/
def OAIAgent.action {RawState Obs HState : Type}
    (policyEval : StateDict → Obs → Option HState → Option Bool → Bool → Fin 6 × Option HState)
    (encoding_fn : RawState → Nat → Obs) (a : OAIAgent) (overcooked_state : RawState) :
    Except String PyVal :=
  match a.p_idx with
  | none => .error "Please call set_idx() before action. Otherwise, call predict with agent specific obs"
  | some p =>
      let obs := encoding_fn overcooked_state p
      let act := (OAIAgent.predict policyEval a obs none none true).1
      .ok (INDEX_TO_ACTION act)

/-! ## Trainer-level checkpoint store (`OAITrainer.save_agents` / `load_agents`) -/

/-- A value stored in the trainer manifest dict: the concrete model type tag or
a list of agent file names. -/
inductive ManVal where
  | typeTag : String → ManVal
  | names : List String → ManVal
deriving Repr, DecidableEq

/-- A Python dict with string keys, as an association list. -/
abbrev PyDict := List (String × ManVal)

/-- Python `d[k]`: a `KeyError` when the key is absent. -/
def dictGet (d : PyDict) (k : String) : Except String ManVal :=
  match d.find? (fun kv => kv.1 == k) with
  | some kv => .ok kv.2
  | none => .error ("KeyError: " ++ k)

/-- Python `d[k] = v` (the key is known to be present or is added). -/
def dictSet (d : PyDict) (k : String) (v : ManVal) : PyDict :=
  match d with
  | [] => [(k, v)]
  | kv :: rest => if kv.1 == k then (k, v) :: rest else kv :: dictSet rest k v

/-- The loop body of `OAITrainer.save_agents` (base_agent.py lines 207-210):
for each agent, save its own checkpoint under `agent_{i}` and then append
`agent_{i}` to `save_dict['agent_paths']` — a key the dict was never given
(it was initialized as `'agent_fns'`), so the first iteration raises. -/
def save_agents_loop (d : PyDict) (i : Nat) (agents : List OAIAgent)
    (written : List (String × Checkpoint)) :
    Except String (PyDict × List (String × Checkpoint)) :=
  match agents with
  | [] => .ok (d, written)
  | a :: rest =>
      let fn := "agent_" ++ toString i
      let written2 := written ++ [(fn, a.save)]
      match dictGet d "agent_paths" with
      | .error e => .error e
      | .ok (ManVal.names ps) =>
          save_agents_loop (dictSet d "agent_paths" (.names (ps ++ [fn]))) (i + 1) rest written2
      | .ok _ => .error "TypeError"

/-- Embeds `OAITrainer.save_agents` (base_agent.py lines 199-212): build
`save_dict = {'model_type': type(self.agents[0]), 'agent_fns': []}` (reading
`agents[0]` raises IndexError on an empty agent list) and run the saving loop.
On success it returns the manifest dict and the per-agent checkpoint files. -/
def save_agents (agents : List OAIAgent) :
    Except String (PyDict × List (String × Checkpoint)) :=
  match agents with
  | [] => .error "IndexError"
  | _ :: _ =>
      save_agents_loop [("model_type", .typeTag "OAIAgent"), ("agent_fns", .names [])]
        0 agents []

/-- Embeds `OAITrainer.load_agents` (base_agent.py lines 214-230): read the manifest,
then load each file listed under `'agent_fns'` in order. -/
def load_agents (store : PyDict × List (String × Checkpoint)) (args : Args) :
    Except String (List OAIAgent) :=
  match dictGet store.1 "agent_fns" with
  | .error e => .error e
  | .ok (ManVal.names fns) =>
      fns.foldr
        (fun fn acc =>
          match acc with
          | .error e => .error e
          | .ok rest =>
              match store.2.find? (fun p => p.1 == fn) with
              | some p => .ok (OAIAgent.load p.2 args :: rest)
              | none => .error ("FileNotFoundError: " ++ fn))
        (.ok [])
  | .ok _ => .error "TypeError"

/-! ## The recurrent wrapper (`SB3LSTMWrapper.predict`) -/

/-- The `episode_start` argument as Python sees it: `None` or a one-element
numpy bool array. -/
inductive NpBoolArg where
  | noneArg
  | arr : Bool → NpBoolArg
deriving Repr, DecidableEq

/-- Python truthiness of that argument (`None` and `np.array([False])` are
falsy, `np.array([True])` is truthy). -/
def NpBoolArg.truthy : NpBoolArg → Bool
  | .noneArg => false
  | .arr b => b

/-- Modelled from the documented contract of the external stable-baselines3
recurrent delegate: `predict(obs, state, episode_start)` resets the hidden
state to its initial value when `episode_start` holds (or when no state is
supplied), and otherwise continues from the supplied state. -/
def sb3RecurrentPredict {Obs HState : Type} (rnnStep : Obs → HState → Fin 6 × HState)
    (initState : HState) (obs : Obs) (state : Option HState) (episode_start : Bool) :
    Fin 6 × HState :=
  let s := if episode_start then initState else state.getD initState
  rnnStep obs s

/-- Embeds `SB3LSTMWrapper.predict` (base_agent.py lines 151-156): the line
`episode_start = episode_start or np.ones((1,), dtype=bool)` replaces every
falsy `episode_start` (in particular the default `None` and `np.zeros`) by an
all-ones array before delegating. -/
def SB3LSTMWrapper.predict {Obs HState : Type} (rnnStep : Obs → HState → Fin 6 × HState)
    (initState : HState) (obs : Obs) (state : Option HState) (episode_start : NpBoolArg) :
    Fin 6 × HState :=
  let es : NpBoolArg := if episode_start.truthy then episode_start else .arr true
  sb3RecurrentPredict rnnStep initState obs state es.truthy

/-! ## The hierarchical manager (`HumanManagerHRL`) -/

/-- The observation dict consumed by `HumanManagerHRL`: the completion
signals may be absent (`None`), the subtask mask, and the reserved
`curr_subtask` key injected before delegation. -/
structure HRLObs where
  player_completed_subtasks : Option (List Int)
  teammate_completed_subtasks : Option (List Int)
  subtask_mask : List Int
  curr_subtask : Option Int
deriving Repr, DecidableEq

/-- The `curr_subtask_id` update performed by `HumanManagerHRL.predict`
(run_overcooked_game.py lines 368-380): ask for a new subtask exactly when
`np.sum(obs['player_completed_subtasks']) == 1`; `user_input` stands for the
value typed at the `input()` prompt.  (A `None` field never compares equal
to 1, so the id is left unchanged there.) -/
def HumanManagerHRL.predictId (curr_subtask_id : Int) (user_input : Int)
    (obs : HRLObs) : Int :=
  match obs.player_completed_subtasks with
  | some xs => if xs.sum = 1 then user_input else curr_subtask_id
  | none => curr_subtask_id

/-- The `curr_subtask_id` update performed by `HumanManagerHRL.get_distribution`
(run_overcooked_game.py lines 359-366): ask for a new subtask whenever
`obs['player_completed_subtasks'] is not None` — including a present but
all-zero completion vector. -/
def HumanManagerHRL.getDistributionId (curr_subtask_id : Int) (user_input : Int)
    (obs : HRLObs) : Int :=
  match obs.player_completed_subtasks with
  | some _ => user_input
  | none => curr_subtask_id

/-- The observation handed to the worker by `HumanManagerHRL.predict`: the
chosen subtask id is written under `curr_subtask` and both completion-signal
fields are popped. -/
def HumanManagerHRL.workerObs (obs : HRLObs) (st : Int) : HRLObs :=
  { obs with curr_subtask := some st,
             player_completed_subtasks := none,
             teammate_completed_subtasks := none }

/-- Embeds `HumanManagerHRL.predict` in full: update the subtask id, inject it,
strip the completion fields, and delegate to the worker (an abstract
function); returns the worker's answer and the manager's new subtask id. -/
def HumanManagerHRL.predict {W : Type} (worker : HRLObs → W)
    (curr_subtask_id : Int) (user_input : Int) (obs : HRLObs) : W × Int :=
  let newId := HumanManagerHRL.predictId curr_subtask_id user_input obs
  (worker (HumanManagerHRL.workerObs obs newId), newId)

/-- Embeds `HumanManagerHRL.get_distribution` in full: update the subtask id, inject
it (this path does not pop the completion fields), and delegate. -/
def HumanManagerHRL.get_distribution {W : Type} (worker : HRLObs → W)
    (curr_subtask_id : Int) (user_input : Int) (obs : HRLObs) : W × Int :=
  let newId := HumanManagerHRL.getDistributionId curr_subtask_id user_input obs
  (worker { obs with curr_subtask := some newId }, newId)

/-! ## Joint-action textual decoding (`str_to_actions`) -/

/-- Skip blanks. -/
def skipWs : List Char → List Char
  | [] => []
  | c :: cs => if c = ' ' ∨ c = '\t' ∨ c = '\n' then skipWs cs else c :: cs

/-- Read the body of a quoted string up to the closing quote `q`. -/
def takeStr (q : Char) : List Char → Option (List Char × List Char)
  | [] => none
  | c :: cs =>
      if c = q then some ([], cs)
      else (takeStr q cs).map (fun p => (c :: p.1, p.2))

/-- Read a maximal run of digits. -/
def takeDigits : List Char → List Char × List Char
  | [] => ([], [])
  | c :: cs =>
      if c.isDigit then
        let p := takeDigits cs
        (c :: p.1, p.2)
      else ([], c :: cs)

/-- The numeric value of a digit run. -/
def digitsToNat (ds : List Char) : Nat :=
  ds.foldl (fun n c => 10 * n + (c.toNat - 48)) 0

mutual

/-- Read one value.  With `py = false` this is the JSON subset the logged
cells use (`json.loads`: double-quoted strings, arrays, integers); with
`py = true` it is the permissive literal fallback (`eval`: additionally
single-quoted strings and parenthesized tuples).  `fuel` bounds the nesting. -/
def readVal (py : Bool) : Nat → List Char → Option (PyVal × List Char)
  | 0, _ => none
  | Nat.succ fuel, input =>
      match skipWs input with
      | [] => none
      | c :: cs =>
          if c = '"' then
            (takeStr '"' cs).map (fun p => (.str (String.mk p.1), p.2))
          else if py ∧ c = '\'' then
            (takeStr '\'' cs).map (fun p => (.str (String.mk p.1), p.2))
          else if c = '[' then
            match readItems py fuel ']' cs with
            | some (vs, rest) => some (.list vs, rest)
            | none => none
          else if py ∧ c = '(' then
            match readItems py fuel ')' cs with
            | some (vs, rest) => some (.tup vs, rest)
            | none => none
          else if c = '-' then
            match takeDigits cs with
            | ([], _) => none
            | (ds, rest) => some (.int (-(digitsToNat ds : Int)), rest)
          else if c.isDigit then
            match takeDigits (c :: cs) with
            | ([], _) => none
            | (ds, rest) => some (.int (digitsToNat ds), rest)
          else none

/-- Read the comma-separated items of a sequence up to the closing
bracket `close`. -/
def readItems (py : Bool) : Nat → Char → List Char → Option (List PyVal × List Char)
  | 0, _, _ => none
  | Nat.succ fuel, close, input =>
      match skipWs input with
      | [] => none
      | c :: cs =>
          if c = close then some ([], cs)
          else
            match readVal py fuel (c :: cs) with
            | none => none
            | some (v, rest) =>
                match skipWs rest with
                | ',' :: rest2 =>
                    match readItems py fuel close rest2 with
                    | some (vs, r) => some (v :: vs, r)
                    | none => none
                | c2 :: rest2 => if c2 = close then some ([v], rest2) else none
                | [] => none

end

/-- Run a reader over a whole string (it must consume everything but
trailing blanks). -/
def loadsWith (py : Bool) (s : String) : Option PyVal :=
  match readVal py (2 * s.length + 2) s.toList with
  | some (v, rest) => if skipWs rest = [] then some v else none
  | none => none

/-- Embeds `json.loads` on the grammar the logged cells use. -/
def json_loads (s : String) : Option PyVal := loadsWith false s

/-- The permissive `eval` fallback on the same shapes. -/
def py_eval (s : String) : Option PyVal := loadsWith true s

/-- The parsing stage of `str_to_actions` (run_overcooked_game.py lines
55-59): try JSON first, fall back to `eval` on a JSON decode error. -/
def parseCell (s : String) : Except String PyVal :=
  match json_loads s with
  | some v => .ok v
  | none =>
      match py_eval s with
      | some v => .ok v
      | none => .error "SyntaxError"

/-- ASCII lowercasing of one character (`str.lower` on the action aliases). -/
def lowerChar (c : Char) : Char :=
  if 'A' ≤ c ∧ c ≤ 'Z' then Char.ofNat (c.toNat + 32) else c

/-- ASCII lowercasing of a string. -/
def lowerStr (s : String) : String :=
  String.mk (s.toList.map lowerChar)

/-- One iteration body (before the assert) of the normalization loop of
`str_to_actions` (run_overcooked_game.py lines 61-64) on element `x` of the
parsed cell: the branches `joint_action[i] = tuple(joint_action[i])` and
`joint_action[i] = joint_action[i].lower()` assign into the container
in place, which raises `TypeError` when the container does not support item
assignment (`canAssign = false`: the immutable tuple cells the eval fallback
can produce); an element needing no assignment is left as it is. -/
def normalizeAssign (canAssign : Bool) (x : PyVal) : Except String PyVal :=
  match x with
  | .list ys => if canAssign then .ok (.tup ys) else .error "TypeError"
  | .str s => if canAssign then .ok (.str (lowerStr s)) else .error "TypeError"
  | v => .ok v

/-- The validation stage of `str_to_actions` (run_overcooked_game.py lines
60-66): index the parsed cell at 0 and 1 (IndexError when shorter, TypeError
when not a sequence — a bare string cell likewise raises `TypeError` at its
first in-place assignment, strings being immutable), and for each of the two
elements in order run the normalization assignments and then assert
membership in the legal action set `allActions`. -/
def validateActions (allActions : List PyVal) (v : PyVal) :
    Except String (List PyVal) :=
  let seq? : Option (List PyVal × Bool) :=
    match v with
    | .list xs => some (xs, true)
    | .tup xs => some (xs, false)
    | _ => none
  match seq? with
  | none => .error "TypeError"
  | some (xs, canAssign) =>
      match xs with
      | a0 :: a1 :: rest =>
          match normalizeAssign canAssign a0 with
          | .error e => .error e
          | .ok b0 =>
              if pyMem b0 allActions then
                match normalizeAssign canAssign a1 with
                | .error e => .error e
                | .ok b1 =>
                    if pyMem b1 allActions then .ok (b0 :: b1 :: rest)
                    else .error "AssertionError"
              else .error "AssertionError"
      | _ => .error "IndexError"

/-- Embeds `str_to_actions` (run_overcooked_game.py lines 50-66), with the legal
action set of the external `Action` class as a parameter. -/
def str_to_actions (allActions : List PyVal) (s : String) :
    Except String (List PyVal) :=
  match parseCell s with
  | .error e => .error e
  | .ok v => validateActions allActions v

/-! ## Trial-id computation and the trajectory file key (`App.__init__`,
`App.save_trajectory`) -/

/-- Split a character list at every `'.'` (Python `str.split('.')`:
`"a.b" ↦ ["a","b"]`, `"" ↦ [""]`). -/
def splitDots : List Char → List (List Char)
  | [] => [[]]
  | c :: cs =>
      let r := splitDots cs
      if c = '.' then [] :: r
      else
        match r with
        | [] => [[c]]
        | h :: t => (c :: h) :: t

/-- Computes `file.split('.')` as a list of strings. -/
def dotComponents (f : String) : List String :=
  (splitDots f.toList).map (fun cs => String.mk cs)

/-- A non-empty all-digit string (`[0-9]+`). -/
def isDigits (s : String) : Bool :=
  !s.toList.isEmpty && s.toList.all Char.isDigit

/-- The regex `^.*\.[0-9]+\.pickle$` of `App.__init__` (run_overcooked_game.py
line 138) on a file name split at dots: at least three components, the last
is `pickle`, the second-to-last a non-empty digit run. -/
def isTrialFile (f : String) : Bool :=
  let comps := dotComponents f
  decide (3 ≤ comps.length) && (comps.getLastD "" == "pickle")
    && isDigits (comps.getD (comps.length - 2) "")

/-- Embeds `int(file.split('.')[-2])` (run_overcooked_game.py line 142). -/
def fileTrialId (f : String) : Nat :=
  let comps := dotComponents f
  digitsToNat (comps.getD (comps.length - 2) "").toList

/-- The trial ids collected from the data directory: every matching file,
with no filtering by layout name. -/
def trialIdsOf (files : List String) : List Nat :=
  (files.filter isTrialFile).map fileTrialId

/-- Embeds `self.trial_id = max(trial_ids) + 1 if len(trial_ids) > 0 else 1`
(run_overcooked_game.py line 143). -/
def computeTrialId (files : List String) : Nat :=
  let ids := trialIdsOf files
  if 0 < ids.length then ids.foldl max 0 + 1 else 1

/-- Join components with dots (inverse of `dotComponents` on its image). -/
def joinDots : List String → String
  | [] => ""
  | [s] => s
  | s :: rest => s ++ "." ++ joinDots rest

/-- The spec's version of the same computation, for comparison (written from
the spec's words, not from the source): only files of the *same layout*
contribute, where a trial file of layout `l` is named `l.<id>.pickle`. -/
def specLayoutTrialId (layout_name : String) (files : List String) : Nat :=
  let ids := (files.filter
      (fun f => isTrialFile f &&
        (joinDots ((dotComponents f).dropLast.dropLast) == layout_name))).map
    fileTrialId
  if 0 < ids.length then ids.foldl max 0 + 1 else 1

/-- The file key written by `App.save_trajectory` (run_overcooked_game.py
lines 322-324): `f'{self.layout_name}.{self.trial_id}.pickle'`. -/
def save_key (layout_name : String) (trial_id : Nat) : String :=
  layout_name ++ "." ++ toString trial_id ++ ".pickle"

/-! ## The COLLECT loop (`App.step_env`, `App.collection_execution`) -/

/-- One scripted response of the external environment to a joint action:
the previous-state snapshot, the joint action taken, the per-agent sparse
rewards (`info['sparse_r_by_agent']`), and the done flag. -/
structure EnvStep where
  prev_state : String
  joint_action : List PyVal
  sparse_r_by_agent : List Int
  done : Bool

/-- One persisted `Transition` record, with the fields `App.step_env` writes
(run_overcooked_game.py lines 193-208). -/
structure Transition where
  state : String
  joint_action : List PyVal
  reward : Int
  time_left : ℚ
  score : Int
  time_elapsed : ℚ
  cur_gameloop : Nat
  layout_name : String
  trial_id : Nat

/-- Embeds `App.step_env` (run_overcooked_game.py lines 180-211): step the
environment, add the summed sparse reward to the score, and build the
transition; the trial id recorded is the constant `100`
(`"trial_id": 100  # TODO this is just for testing self.trial_id`).
Returns the transition and the new score. -/
def step_env (fps : ℚ) (layout_name : String) (curr_tick : Nat) (score : Int)
    (e : EnvStep) : Transition × Int :=
  let curr_reward := e.sparse_r_by_agent.sum
  let new_score := score + curr_reward
  ({ state := e.prev_state, joint_action := e.joint_action,
     reward := curr_reward,
     time_left := max ((1200 - (curr_tick : ℚ)) / fps) 0,
     score := new_score,
     time_elapsed := (curr_tick : ℚ) / fps,
     cur_gameloop := curr_tick,
     layout_name := layout_name,
     trial_id := 100 }, new_score)

/-- The COLLECT loop (`App.collection_execution` with `App.on_loop`,
run_overcooked_game.py lines 213-220 and 235-250): each tick appends one
transition and increments the tick counter, and the loop stops after the
step on which the environment signals done (or when the scripted input is
exhausted). -/
def collection_loop (fps : ℚ) (layout_name : String) :
    Nat → Int → List EnvStep → List Transition
  | _, _, [] => []
  | curr_tick, score, e :: rest =>
      let p := step_env fps layout_name curr_tick score e
      p.1 :: (if e.done then [] else collection_loop fps layout_name (curr_tick + 1) p.2 rest)

/-- A COLLECT session over a scripted environment trace, started at tick 0
and score 0. -/
def collection_execution (fps : ℚ) (layout_name : String) (trace : List EnvStep) :
    List Transition :=
  collection_loop fps layout_name 0 0 trace

/-! ## The REPLAY loop (`App.replay_execution`) -/

/-- The replay cursor state: the current trial id, the tick counter, the
score, and the number of environment steps since the last reset. -/
structure ReplayState where
  trial_id : Int
  curr_tick : Nat
  score : Int
  env_steps : Nat
deriving Repr, DecidableEq

/-- One iteration of the `replay_execution` for-loop (run_overcooked_game.py
lines 258-270) on a record bearing `row_trial`: when the trial id matches the
cursor and the environment is not done, replay the stored action (stepping
the environment, accumulating the reward, incrementing the tick); otherwise
treat it as a trial boundary (reset the environment, zero tick and score,
move the cursor).  Returns the new state and whether a boundary reset
happened.  `is_done`/`reward` describe the external environment as functions
of the steps taken since its last reset. -/
def replay_step (is_done : Nat → Bool) (reward : Nat → Int)
    (st : ReplayState) (row_trial : Int) : ReplayState × Bool :=
  if row_trial = st.trial_id ∧ is_done st.env_steps = false then
    ({ st with score := st.score + reward st.env_steps,
               curr_tick := st.curr_tick + 1,
               env_steps := st.env_steps + 1 }, false)
  else
    ({ trial_id := row_trial, curr_tick := 0, score := 0, env_steps := 0 }, true)

/-- Run the replay loop over the remaining records, recording the (0-based)
indices of the records at which a boundary reset happened. -/
def replay_go (is_done : Nat → Bool) (reward : Nat → Int) :
    ReplayState → Nat → List Int → ReplayState × List Nat
  | st, _, [] => (st, [])
  | st, idx, row :: rest =>
      let p := replay_step is_done reward st row
      let q := replay_go is_done reward p.1 (idx + 1) rest
      (q.1, if p.2 then idx :: q.2 else q.2)

/-- Embeds `App.replay_execution` (run_overcooked_game.py lines 252-271) on the
trial-id column of a loaded trajectory: the cursor starts at the first
record's trial id (`self.trajectory.iloc[0]['trial_id']`), tick and score
start at 0, the environment is fresh, and every record is processed in
order. -/
def replay_execution (is_done : Nat → Bool) (reward : Nat → Int)
    (rows : List Int) : ReplayState × List Nat :=
  match rows with
  | [] => (⟨0, 0, 0, 0⟩, [])
  | r :: _ => replay_go is_done reward ⟨r, 0, 0, 0⟩ 0 rows

/-! ## Theorems -/

/-- C1: loading the checkpoint produced by `OAIAgent.save` yields an agent
whose `predict` on any fixed observation (and carried state / episode-start
flag) returns exactly the saved agent's answer — action index and, for
recurrent variants, new hidden state — for every policy the weights may
encode; as pure functions, repeated trials trivially agree. -/
theorem C1_load_save_predict_roundtrip {Obs HState : Type}
    (policyEval : StateDict → Obs → Option HState → Option Bool → Bool → Fin 6 × Option HState)
    (a : OAIAgent) (runtime_args : Args) (obs : Obs) (state : Option HState)
    (episode_start : Option Bool) (deterministic : Bool) :
    OAIAgent.predict policyEval (OAIAgent.load (OAIAgent.save a) runtime_args)
        obs state episode_start deterministic
      = OAIAgent.predict policyEval a obs state episode_start deterministic := rfl

/-- C2 (code bug): `OAITrainer.save_agents` never succeeds.  With no agents,
`type(self.agents[0])` raises IndexError; with at least one agent, the first
loop iteration appends to `save_dict['agent_paths']`, a key the manifest dict
was never given (it was initialized as `'agent_fns'`), raising KeyError.  So
the save/load round trip the claim states is unreachable. -/
theorem C2_save_agents_always_fails (agents : List OAIAgent) :
    save_agents agents
      = Except.error
          (match agents with
           | [] => "IndexError"
           | _ :: _ => "KeyError: agent_paths") := by
  cases agents with
  | nil => rfl
  | cons a rest => rfl

/-- C6: `OAIAgent.action` raises exactly when the player index was never
bound, and with a bound index it encodes the raw state for that seat, calls
`predict` deterministically, and maps the returned index through the fixed
`INDEX_TO_ACTION` table. -/
theorem C6_action_iff_bound {RawState Obs HState : Type}
    (policyEval : StateDict → Obs → Option HState → Option Bool → Bool → Fin 6 × Option HState)
    (encoding_fn : RawState → Nat → Obs) (a : OAIAgent) (overcooked_state : RawState) :
    ((∃ e, OAIAgent.action policyEval encoding_fn a overcooked_state = Except.error e)
        ↔ a.p_idx = none)
    ∧ (∀ p, a.p_idx = some p →
        OAIAgent.action policyEval encoding_fn a overcooked_state
          = Except.ok (INDEX_TO_ACTION
              (policyEval a.state_dict (encoding_fn overcooked_state p) none none true).1)) := by
  cases h : a.p_idx with
  | none =>
      refine ⟨⟨fun _ => rfl,
        fun _ => ⟨"Please call set_idx() before action. Otherwise, call predict with agent specific obs", ?_⟩⟩,
        fun p hp => by simp [h] at hp⟩
      simp [OAIAgent.action, h]
  | some p =>
      refine ⟨⟨?_, ?_⟩, ?_⟩
      · rintro ⟨e, he⟩
        simp [OAIAgent.action, h] at he
      · intro hc
        simp [h] at hc
      · intro q hq
        injection hq with hq
        subst hq
        simp [OAIAgent.action, OAIAgent.predict, h]

/-- C7 (code bug): the line `episode_start = episode_start or np.ones(...)`
in `SB3LSTMWrapper.predict` replaces every falsy `episode_start` (the default
`None` included) by an all-ones array, so the recurrent delegate restarts
from its initial hidden state on every call: the carried state is never
consumed, contradicting the spec's threading contract (the `# TODO pass in
episode starts` comment marks the slip). -/
theorem C7_lstm_predict_always_resets {Obs HState : Type}
    (rnnStep : Obs → HState → Fin 6 × HState) (initState : HState)
    (obs : Obs) (state : Option HState) (episode_start : NpBoolArg) :
    SB3LSTMWrapper.predict rnnStep initState obs state episode_start
      = rnnStep obs initState := by
  cases episode_start with
  | noneArg => rfl
  | arr b => cases b <;> rfl

/-- C8 counterexample: a `get_distribution` call whose observation carries a
present but all-zero "player completed subtasks" vector — an empty completion
signal — still changes `curr_subtask_id` (here from 11 to the prompted 3),
because that path tests `is not None` rather than non-emptiness. -/
theorem C8_counterexample :
    HumanManagerHRL.getDistributionId 11 3 ⟨some [0, 0, 0], none, [], none⟩ = 3
    ∧ ((3 : Int) ≠ 11)
    ∧ (([0, 0, 0] : List Int).sum = 0) := by
  refine ⟨rfl, by decide, by decide⟩

/-- C8 (amended): `curr_subtask_id` changes on a `predict` call only when the
completed-subtasks vector sums to exactly 1, and on a `get_distribution` call
only when the field is present (not `None`) — including a present all-zero
vector; with the field absent both calls leave it unchanged. -/
theorem C8_amended :
    (∀ (c u : Int) (o : HRLObs), HumanManagerHRL.predictId c u o ≠ c →
        ∃ xs, o.player_completed_subtasks = some xs ∧ xs.sum = 1)
    ∧ (∀ (c u : Int) (o : HRLObs), HumanManagerHRL.getDistributionId c u o ≠ c →
        o.player_completed_subtasks ≠ none)
    ∧ (∀ (c u : Int) (o : HRLObs) (xs : List Int),
        o.player_completed_subtasks = some xs →
        HumanManagerHRL.getDistributionId c u o = u)
    ∧ (∀ (c u : Int) (o : HRLObs), o.player_completed_subtasks = none →
        HumanManagerHRL.predictId c u o = c
          ∧ HumanManagerHRL.getDistributionId c u o = c) := by
  refine ⟨?_, ?_, ?_, ?_⟩
  · intro c u o hch
    cases hpcs : o.player_completed_subtasks with
    | none => simp [HumanManagerHRL.predictId, hpcs] at hch
    | some xs =>
        simp only [HumanManagerHRL.predictId, hpcs] at hch
        by_cases hs : xs.sum = 1
        · exact ⟨xs, rfl, hs⟩
        · rw [if_neg hs] at hch; exact absurd rfl hch
  · intro c u o hch hpcs
    rw [HumanManagerHRL.getDistributionId, hpcs] at hch
    exact hch rfl
  · intro c u o xs hpcs
    rw [HumanManagerHRL.getDistributionId, hpcs]
  · intro c u o hpcs
    exact ⟨by rw [HumanManagerHRL.predictId, hpcs],
           by rw [HumanManagerHRL.getDistributionId, hpcs]⟩

/-- C3: replaying a log whose trial-id column is `[1,1,1,2,2]`, with the
environment not signaling done while it is being stepped, performs the
tick/score reset exactly once — at index 3, the first record bearing trial
id 2 (and after processing that boundary record, the cursor is at trial 2
with tick and score zero). -/
theorem C3_replay_resets_once (is_done : Nat → Bool) (reward : Nat → Int)
    (h0 : is_done 0 = false) (h1 : is_done 1 = false) (h2 : is_done 2 = false) :
    (replay_execution is_done reward [1, 1, 1, 2, 2]).2 = [3]
    ∧ ([1, 1, 1, 2, 2] : List Int).indexOf 2 = 3
    ∧ (replay_execution is_done reward [1, 1, 1, 2]).1
        = ⟨2, 0, 0, 0⟩ := by
  refine ⟨?_, by decide, ?_⟩ <;>
    simp [replay_execution, replay_go, replay_step, h0, h1, h2]

/-- C3 witness: the environment that is never done instantiates the
hypotheses. -/
theorem C3_witness :
    (replay_execution (fun _ => false) (fun _ => 0) [1, 1, 1, 2, 2]).2 = [3]
    ∧ ([1, 1, 1, 2, 2] : List Int).indexOf 2 = 3
    ∧ (replay_execution (fun _ => false) (fun _ => 0) [1, 1, 1, 2]).1
        = ⟨2, 0, 0, 0⟩ :=
  C3_replay_resets_once (fun _ => false) (fun _ => 0) rfl rfl rfl

/-- Every transition built by the COLLECT loop records trial id 100. -/
theorem collection_loop_trial_id (fps : ℚ) (ln : String) :
    ∀ (trace : List EnvStep) (tick : Nat) (score : Int) (i : Nat) (t : Transition),
      (collection_loop fps ln tick score trace).get? i = some t → t.trial_id = 100 := by
  intro trace
  induction trace with
  | nil => intro tick score i t h; simp [collection_loop] at h
  | cons e rest ih =>
      intro tick score i t h
      cases i with
      | zero =>
          rw [collection_loop] at h
          injection h with h
          rw [← h]
          rfl
      | succ j =>
          rw [collection_loop] at h
          simp only [List.get?] at h
          by_cases hd : e.done
          · rw [if_pos hd] at h
            simp at h
          · rw [if_neg hd] at h
            exact ih (tick + 1) _ j t h

/-- C10: every `Transition` appended by `step_env` records the constant trial
identifier 100, so whenever the session's computed (auto-incremented) trial
id differs from 100, the id stored inside the records never equals the id
used in the persisted file name. -/
theorem C10_trial_id_is_100 (fps : ℚ) (layout_name : String) (trace : List EnvStep)
    (i : Nat) (t : Transition) (files : List String)
    (h : (collection_execution fps layout_name trace).get? i = some t) :
    t.trial_id = 100
    ∧ (computeTrialId files ≠ 100 → t.trial_id ≠ computeTrialId files) := by
  have h100 : t.trial_id = 100 :=
    collection_loop_trial_id fps layout_name trace 0 0 i t h
  exact ⟨h100, fun hne => by rw [h100]; exact fun hc => hne hc.symm⟩

/-- C10 witness: one scripted tick; the directory scan of a fresh data
directory computes trial id 1 ≠ 100. -/
theorem C10_witness :
    (collection_execution 1 "forced_coordination"
        [⟨"s", [], [], true⟩]).get? 0
      = some (step_env 1 "forced_coordination" 0 0 ⟨"s", [], [], true⟩).1
    ∧ ((step_env 1 "forced_coordination" 0 0 ⟨"s", [], [], true⟩).1.trial_id = 100
        ∧ (computeTrialId [] ≠ 100 →
            (step_env 1 "forced_coordination" 0 0 ⟨"s", [], [], true⟩).1.trial_id
              ≠ computeTrialId [])) :=
  ⟨rfl, C10_trial_id_is_100 1 "forced_coordination" [⟨"s", [], [], true⟩] 0 _ [] rfl⟩

/-- C4 counterexample: with a data directory holding only another layout's
trial file `asymmetric_advantages.5.pickle`, the code computes trial id 6 for
a `forced_coordination` session, while the claim's per-layout computation
says 1: the scan in `App.__init__` does not filter by layout name. -/
theorem C4_counterexample :
    computeTrialId ["asymmetric_advantages.5.pickle"] = 6
    ∧ specLayoutTrialId "forced_coordination" ["asymmetric_advantages.5.pickle"] = 1
    ∧ computeTrialId ["asymmetric_advantages.5.pickle"]
        ≠ specLayoutTrialId "forced_coordination" ["asymmetric_advantages.5.pickle"] := by
  refine ⟨by decide, by decide, by decide⟩

/-- The fold `foldl max` dominates its starting value. -/
theorem le_foldl_max (l : List Nat) : ∀ a : Nat, a ≤ l.foldl max a := by
  induction l with
  | nil => intro a; exact Nat.le_refl a
  | cons y ys ih =>
      intro a
      exact le_trans (Nat.le_max_left a y) (ih (max a y))

/-- The fold `foldl max` dominates every member. -/
theorem mem_le_foldl_max (l : List Nat) : ∀ (a x : Nat), x ∈ l → x ≤ l.foldl max a := by
  induction l with
  | nil => intro a x hx; cases hx
  | cons y ys ih =>
      intro a x hx
      rcases List.mem_cons.mp hx with h | h
      · subst h
        exact le_trans (Nat.le_max_right a x) (le_foldl_max ys (max a x))
      · exact ih (max a y) x h

/-- C4 (amended): the session's trial id is one greater than the maximum
trial id parsed from ALL matching `*.N.pickle` files in the data directory —
regardless of which layout they belong to — or 1 when no matching file
exists; the persisted key is the layout name joined with that id. -/
theorem C4_trial_id_over_all_layouts (files : List String) (f : String)
    (layout_name : String) (hf : f ∈ files) (ht : isTrialFile f = true) :
    fileTrialId f < computeTrialId files
    ∧ computeTrialId files = (trialIdsOf files).foldl max 0 + 1
    ∧ computeTrialId (files.filter (fun g => !isTrialFile g)) = 1
    ∧ save_key layout_name (computeTrialId files)
        = layout_name ++ "." ++ toString (computeTrialId files) ++ ".pickle" := by
  have hmem : fileTrialId f ∈ trialIdsOf files :=
    List.mem_map_of_mem fileTrialId (List.mem_filter.mpr ⟨hf, ht⟩)
  have hlen : 0 < (trialIdsOf files).length :=
    List.length_pos.mpr (List.ne_nil_of_mem hmem)
  have hmax : computeTrialId files = (trialIdsOf files).foldl max 0 + 1 := by
    rw [computeTrialId, if_pos hlen]
  refine ⟨?_, hmax, ?_, rfl⟩
  · rw [hmax]
    exact Nat.lt_succ_of_le (mem_le_foldl_max (trialIdsOf files) 0 _ hmem)
  · have hids : trialIdsOf (files.filter (fun g => !isTrialFile g)) = [] := by
      rw [trialIdsOf, List.filter_filter]
      have : ∀ g : String, (isTrialFile g && !isTrialFile g) = false := by
        intro g; cases isTrialFile g <;> rfl
      simp [this]
    rw [computeTrialId, hids]
    rfl

/-- C4 witness: a directory holding a foreign layout's trial 5 and this
layout's trial 2 yields id 6 for the next `forced_coordination` session. -/
theorem C4_witness :
    ("forced_coordination.2.pickle"
        ∈ ["asymmetric_advantages.5.pickle", "forced_coordination.2.pickle"])
    ∧ isTrialFile "forced_coordination.2.pickle" = true
    ∧ (fileTrialId "forced_coordination.2.pickle"
          < computeTrialId ["asymmetric_advantages.5.pickle", "forced_coordination.2.pickle"]
        ∧ computeTrialId ["asymmetric_advantages.5.pickle", "forced_coordination.2.pickle"]
            = (trialIdsOf ["asymmetric_advantages.5.pickle", "forced_coordination.2.pickle"]).foldl max 0 + 1
        ∧ computeTrialId (["asymmetric_advantages.5.pickle", "forced_coordination.2.pickle"].filter
              (fun g => !isTrialFile g)) = 1
        ∧ save_key "forced_coordination"
              (computeTrialId ["asymmetric_advantages.5.pickle", "forced_coordination.2.pickle"])
            = "forced_coordination" ++ "."
                ++ toString (computeTrialId
                      ["asymmetric_advantages.5.pickle", "forced_coordination.2.pickle"])
                ++ ".pickle") :=
  ⟨by decide, by decide,
    C4_trial_id_over_all_layouts _ _ "forced_coordination" (by decide) (by decide)⟩

/-- C5 counterexample: the claim's universal normalization promise fails on
an eval-fallback tuple cell.  For `"((1,0),'interact')"` both elements are
registered legal actions, so the claim says the string element is lowercased
and the cell parses to `((1,0), "interact")`; the code instead raises
`TypeError` at `joint_action[1] = joint_action[1].lower()`, because the
parsed cell is an immutable tuple. -/
theorem C5_counterexample :
    pyMem (PyVal.tup [PyVal.int 1, PyVal.int 0]) ALL_ACTIONS = true
    ∧ pyMem (PyVal.str "interact") ALL_ACTIONS = true
    ∧ str_to_actions ALL_ACTIONS "((1,0),'interact')" = Except.error "TypeError"
    ∧ str_to_actions ALL_ACTIONS "((1,0),'interact')"
        ≠ Except.ok [PyVal.tup [PyVal.int 1, PyVal.int 0], PyVal.str "interact"] := by
  refine ⟨rfl, rfl, rfl, ?_⟩
  intro h
  rw [show str_to_actions ALL_ACTIONS "((1,0),'interact')" = Except.error "TypeError"
        from rfl] at h
  exact Except.noConfusion h

/-- C5 (amended): a joint-action cell is parsed as JSON first and through the
permissive literal fallback on JSON failure.  On a mutable list cell, list
elements become tuples, string elements are lowercased, and each of the two
indexed elements must belong to the legal action set: `"[[1,0],\"interact\"]"`
parses to `((1,0), "interact")` exactly when `"interact"` is a registered
alias, and fails validation otherwise.  On an immutable tuple cell (an eval
fallback result), an element that needs normalization raises `TypeError`
from the in-place assignment even when every element is legal, while a tuple
cell whose elements need no normalization is validated as-is. -/
theorem C5_str_to_actions_cell (A B : List PyVal)
    (hin : pyMem (PyVal.tup [PyVal.int 1, PyVal.int 0]) A = true)
    (hstr : pyMem (PyVal.str "interact") A = true)
    (htup01 : pyMem (PyVal.tup [PyVal.int 0, PyVal.int 1]) A = true)
    (hout : pyMem (PyVal.str "interact") B = false) :
    str_to_actions A "[[1,0],\"interact\"]"
        = Except.ok [PyVal.tup [PyVal.int 1, PyVal.int 0], PyVal.str "interact"]
    ∧ json_loads "[(1, 0), 'interact']" = none
    ∧ str_to_actions A "[(1, 0), 'interact']"
        = Except.ok [PyVal.tup [PyVal.int 1, PyVal.int 0], PyVal.str "interact"]
    ∧ str_to_actions A "[[1,0],\"INTERACT\"]"
        = Except.ok [PyVal.tup [PyVal.int 1, PyVal.int 0], PyVal.str "interact"]
    ∧ str_to_actions B "[[1,0],\"interact\"]" = Except.error "AssertionError"
    ∧ str_to_actions A "((1,0),'interact')" = Except.error "TypeError"
    ∧ str_to_actions A "((1,0),(0,1))"
        = Except.ok [PyVal.tup [PyVal.int 1, PyVal.int 0],
                     PyVal.tup [PyVal.int 0, PyVal.int 1]] := by
  have e1 : ∀ C : List PyVal, str_to_actions C "[[1,0],\"interact\"]"
      = (if pyMem (PyVal.tup [PyVal.int 1, PyVal.int 0]) C then
           if pyMem (PyVal.str "interact") C then
             Except.ok [PyVal.tup [PyVal.int 1, PyVal.int 0], PyVal.str "interact"]
           else Except.error "AssertionError"
         else Except.error "AssertionError") := fun C => rfl
  have e2 : str_to_actions A "[(1, 0), 'interact']"
      = (if pyMem (PyVal.tup [PyVal.int 1, PyVal.int 0]) A then
           if pyMem (PyVal.str "interact") A then
             Except.ok [PyVal.tup [PyVal.int 1, PyVal.int 0], PyVal.str "interact"]
           else Except.error "AssertionError"
         else Except.error "AssertionError") := rfl
  have e3 : str_to_actions A "[[1,0],\"INTERACT\"]"
      = (if pyMem (PyVal.tup [PyVal.int 1, PyVal.int 0]) A then
           if pyMem (PyVal.str "interact") A then
             Except.ok [PyVal.tup [PyVal.int 1, PyVal.int 0], PyVal.str "interact"]
           else Except.error "AssertionError"
         else Except.error "AssertionError") := rfl
  have e4 : str_to_actions A "((1,0),'interact')"
      = (if pyMem (PyVal.tup [PyVal.int 1, PyVal.int 0]) A then
           Except.error "TypeError"
         else Except.error "AssertionError") := rfl
  have e5 : str_to_actions A "((1,0),(0,1))"
      = (if pyMem (PyVal.tup [PyVal.int 1, PyVal.int 0]) A then
           if pyMem (PyVal.tup [PyVal.int 0, PyVal.int 1]) A then
             Except.ok [PyVal.tup [PyVal.int 1, PyVal.int 0],
                        PyVal.tup [PyVal.int 0, PyVal.int 1]]
           else Except.error "AssertionError"
         else Except.error "AssertionError") := rfl
  refine ⟨?_, rfl, ?_, ?_, ?_, ?_, ?_⟩
  · rw [e1 A, hin, hstr]; simp
  · rw [e2, hin, hstr]; simp
  · rw [e3, hin, hstr]; simp
  · rw [e1 B, hout]; simp
  · rw [e4, hin]; simp
  · rw [e5, hin, htup01]; simp

/-- C5 witness: with the concrete overcooked action set (which registers the
alias `"interact"`) the cell parses; with the alias removed it fails. -/
theorem C5_witness :
    pyMem (PyVal.tup [PyVal.int 1, PyVal.int 0]) ALL_ACTIONS = true
    ∧ pyMem (PyVal.str "interact") ALL_ACTIONS = true
    ∧ pyMem (PyVal.tup [PyVal.int 0, PyVal.int 1]) ALL_ACTIONS = true
    ∧ pyMem (PyVal.str "interact") [PyVal.tup [PyVal.int 1, PyVal.int 0]] = false
    ∧ (str_to_actions ALL_ACTIONS "[[1,0],\"interact\"]"
          = Except.ok [PyVal.tup [PyVal.int 1, PyVal.int 0], PyVal.str "interact"]
        ∧ json_loads "[(1, 0), 'interact']" = none
        ∧ str_to_actions ALL_ACTIONS "[(1, 0), 'interact']"
            = Except.ok [PyVal.tup [PyVal.int 1, PyVal.int 0], PyVal.str "interact"]
        ∧ str_to_actions ALL_ACTIONS "[[1,0],\"INTERACT\"]"
            = Except.ok [PyVal.tup [PyVal.int 1, PyVal.int 0], PyVal.str "interact"]
        ∧ str_to_actions [PyVal.tup [PyVal.int 1, PyVal.int 0]] "[[1,0],\"interact\"]"
            = Except.error "AssertionError"
        ∧ str_to_actions ALL_ACTIONS "((1,0),'interact')" = Except.error "TypeError"
        ∧ str_to_actions ALL_ACTIONS "((1,0),(0,1))"
            = Except.ok [PyVal.tup [PyVal.int 1, PyVal.int 0],
                         PyVal.tup [PyVal.int 0, PyVal.int 1]]) :=
  ⟨rfl, rfl, rfl, rfl,
    C5_str_to_actions_cell ALL_ACTIONS [PyVal.tup [PyVal.int 1, PyVal.int 0]]
      rfl rfl rfl rfl⟩

/-- The COLLECT loop stops exactly at the first done step: if step `n` is the
first scripted step with `done`, the trajectory has `n + 1` transitions. -/
theorem collection_loop_length (fps : ℚ) (ln : String) :
    ∀ (trace : List EnvStep) (tick : Nat) (score : Int) (n : Nat) (en : EnvStep),
      trace.get? n = some en → en.done = true →
      (trace.take n).all (fun s => !s.done) = true →
      (collection_loop fps ln tick score trace).length = n + 1 := by
  intro trace
  induction trace with
  | nil => intro tick score n en hn _ _; simp at hn
  | cons e rest ih =>
      intro tick score n en hn hdone hall
      cases n with
      | zero =>
          rw [List.get?_cons_zero] at hn
          injection hn with hn
          subst hn
          rw [collection_loop, if_pos hdone]
          rfl
      | succ m =>
          rw [List.take_succ_cons, List.all_cons] at hall
          have hnd : e.done = false := by
            cases hde : e.done
            · rfl
            · rw [hde] at hall; simp at hall
          have hrest : (rest.take m).all (fun s => !s.done) = true := by
            rw [hnd] at hall; simpa using hall
          rw [List.get?_cons_succ] at hn
          rw [collection_loop, hnd]
          simp only [Bool.false_eq_true, if_false, List.length_cons]
          rw [ih (tick + 1) ((step_env fps ln tick score e).2) m en hn hdone hrest]

/-- Each transition of the COLLECT loop is `step_env` applied at its own tick
and at the score accumulated over the preceding steps. -/
theorem collection_loop_get (fps : ℚ) (ln : String) :
    ∀ (trace : List EnvStep) (tick : Nat) (score : Int) (i : Nat) (t : Transition),
      (collection_loop fps ln tick score trace).get? i = some t →
      ∃ e, trace.get? i = some e ∧
        t = (step_env fps ln (tick + i)
              (score + ((trace.take i).map (fun s => s.sparse_r_by_agent.sum)).sum) e).1 := by
  intro trace
  induction trace with
  | nil => intro tick score i t h; simp [collection_loop] at h
  | cons e rest ih =>
      intro tick score i t h
      cases i with
      | zero =>
          rw [collection_loop, List.get?_cons_zero] at h
          injection h with h
          refine ⟨e, rfl, ?_⟩
          rw [← h]
          simp
      | succ j =>
          rw [collection_loop, List.get?_cons_succ] at h
          by_cases hd : e.done = true
          · rw [if_pos hd] at h
            simp at h
          · rw [if_neg hd] at h
            obtain ⟨e2, hg, ht⟩ := ih (tick + 1) ((step_env fps ln tick score e).2) j t h
            refine ⟨e2, by simpa using hg, ?_⟩
            have harg1 : tick + 1 + j = tick + (j + 1) := by omega
            have harg2 : (step_env fps ln tick score e).2
                + ((rest.take j).map (fun s => s.sparse_r_by_agent.sum)).sum
                = score + (((e :: rest).take (j + 1)).map (fun s => s.sparse_r_by_agent.sum)).sum := by
              simp [step_env, List.take_succ_cons, add_assoc]
            rw [harg1, harg2] at ht
            exact ht

/-- Taking one more element past a known index appends that element. -/
theorem take_succ_of_get? {α : Type} : ∀ (l : List α) (i : Nat) (e : α),
    l.get? i = some e → l.take (i + 1) = l.take i ++ [e] := by
  intro l
  induction l with
  | nil => intro i e h; simp at h
  | cons x xs ih =>
      intro i e h
      cases i with
      | zero =>
          rw [List.get?_cons_zero] at h
          injection h with h
          subst h
          simp
      | succ j =>
          rw [List.get?_cons_succ] at h
          simp [List.take_succ_cons, ih j e h]

/-- The cumulative sum over one more scripted step. -/
theorem cumulative_reward_succ (trace : List EnvStep) (i : Nat) (e : EnvStep)
    (hg : trace.get? i = some e) :
    ((trace.take (i + 1)).map (fun s => s.sparse_r_by_agent.sum)).sum
      = ((trace.take i).map (fun s => s.sparse_r_by_agent.sum)).sum
          + e.sparse_r_by_agent.sum := by
  rw [take_succ_of_get? trace i e hg]
  simp

/-- The quantity `max((1200 − tick)/fps, 0)` vanishes exactly from the horizon tick on. -/
theorem time_left_zero_iff (fps : ℚ) (hfps : 0 < fps) (tk : Nat) :
    (max ((1200 - (tk : ℚ)) / fps) 0 = 0) ↔ 1200 ≤ tk := by
  constructor
  · intro h
    by_contra hlt
    push_neg at hlt
    have hcast : (tk : ℚ) < 1200 := by exact_mod_cast hlt
    have hpos : 0 < (1200 - (tk : ℚ)) / fps := div_pos (by linarith) hfps
    rw [max_eq_left (le_of_lt hpos)] at h
    linarith
  · intro h
    have hcast : (1200 : ℚ) ≤ (tk : ℚ) := by exact_mod_cast h
    have hd : (1200 - (tk : ℚ)) / fps ≤ 0 :=
      div_nonpos_iff.mpr (Or.inr ⟨by linarith, le_of_lt hfps⟩)
    rw [max_eq_right hd]

/-- C9: for a scripted deterministic environment whose first done signal is
at step `n`, the COLLECT trajectory has exactly `n + 1` transitions; each
transition's cumulative score exceeds the previous one's by exactly its own
reward (the summed per-agent sparse rewards); and each transition's time-left
field `max((1200 − tick)/fps, 0)` is zero precisely from the horizon tick
1200 on — so it reaches 0 at, and not before, tick 1200. -/
theorem C9_collect_trajectory (fps : ℚ) (layout_name : String) (trace : List EnvStep)
    (n : Nat) (en : EnvStep) (hfps : 0 < fps)
    (hn : trace.get? n = some en) (hdone : en.done = true)
    (hbefore : (trace.take n).all (fun s => !s.done) = true) :
    (collection_execution fps layout_name trace).length = n + 1
    ∧ (∀ (i : Nat) (t t2 : Transition),
        (collection_execution fps layout_name trace).get? i = some t →
        (collection_execution fps layout_name trace).get? (i + 1) = some t2 →
        t2.score = t.score + t2.reward)
    ∧ (∀ (i : Nat) (t : Transition),
        (collection_execution fps layout_name trace).get? i = some t →
        t.cur_gameloop = i ∧ (t.time_left = 0 ↔ 1200 ≤ i)) := by
  refine ⟨collection_loop_length fps layout_name trace 0 0 n en hn hdone hbefore, ?_, ?_⟩
  · intro i t t2 h1 h2
    obtain ⟨e, hg, ht⟩ := collection_loop_get fps layout_name trace 0 0 i t h1
    obtain ⟨e2, hg2, ht2⟩ := collection_loop_get fps layout_name trace 0 0 (i + 1) t2 h2
    subst ht ht2
    simp only [step_env]
    rw [cumulative_reward_succ trace i e hg]
    ring
  · intro i t h
    obtain ⟨e, hg, ht⟩ := collection_loop_get fps layout_name trace 0 0 i t h
    subst ht
    refine ⟨by simp [step_env], ?_⟩
    simp only [step_env, Nat.zero_add]
    exact time_left_zero_iff fps hfps i

/-- C9 witness: two scripted ticks, the second done, at 3 frames per second. -/
theorem C9_witness :
    (0 : ℚ) < 3
    ∧ (([⟨"s0", [], [0, 0], false⟩, ⟨"s1", [], [1, 2], true⟩] : List EnvStep).get? 1
        = some ⟨"s1", [], [1, 2], true⟩)
    ∧ (EnvStep.done ⟨"s1", [], [1, 2], true⟩ = true)
    ∧ ((([⟨"s0", [], [0, 0], false⟩, ⟨"s1", [], [1, 2], true⟩] : List EnvStep).take 1).all
          (fun s => !s.done) = true)
    ∧ ((collection_execution 3 "forced_coordination"
          [⟨"s0", [], [0, 0], false⟩, ⟨"s1", [], [1, 2], true⟩]).length = 1 + 1
        ∧ (∀ (i : Nat) (t t2 : Transition),
            (collection_execution 3 "forced_coordination"
                [⟨"s0", [], [0, 0], false⟩, ⟨"s1", [], [1, 2], true⟩]).get? i = some t →
            (collection_execution 3 "forced_coordination"
                [⟨"s0", [], [0, 0], false⟩, ⟨"s1", [], [1, 2], true⟩]).get? (i + 1) = some t2 →
            t2.score = t.score + t2.reward)
        ∧ (∀ (i : Nat) (t : Transition),
            (collection_execution 3 "forced_coordination"
                [⟨"s0", [], [0, 0], false⟩, ⟨"s1", [], [1, 2], true⟩]).get? i = some t →
            t.cur_gameloop = i ∧ (t.time_left = 0 ↔ 1200 ≤ i))) :=
  ⟨by norm_num, rfl, rfl, rfl,
    C9_collect_trajectory 3 "forced_coordination"
      [⟨"s0", [], [0, 0], false⟩, ⟨"s1", [], [1, 2], true⟩] 1 ⟨"s1", [], [1, 2], true⟩
      (by norm_num) rfl rfl rfl⟩

end OaiAgents
